import Mathlib

/-!
Verification of the Bulk Image Optimizer frontend (Tauri v2, React/TypeScript)
against its natural-language specification.

The repository under verification contains the TypeScript UI layer:
`App.tsx` (the current revision, here embedded from the file that wires
`reset_cancel_flag`, `cancel_batch`, `create_backup` and `resize_mode`),
`DropZone.tsx`, `SettingsPanel.tsx`, `ProgressPanel.tsx`, `TitleBar.tsx`
and `types.ts`.  The Rust backend (`src-tauri`: batch coordinator, per-file
pipeline, resize operator) is referenced by the UI through `invoke` but its
source is not part of the repository snapshot; where a claim is decided by
that backend, the corresponding definition is modelled from the spec and
says so in its doc comment.

All state handlers are embedded as pure functions: a React `setX` updater
becomes a function from the previous state to the next state, and the
sequence of `invoke` calls a handler performs is returned explicitly as a
trace, so that ordering claims (reset-before-submit, cancel-sends-request)
are statable.
-/

/-- Output formats supported by the optimizer (types.ts `OutputFormat`;
the current revision also exposes `jpeg`, used by `handleFormatChange`,
`SettingsPanel` and the quality condition in `handleStart`). -/
inductive OutputFormat
  | png
  | webp
  | tiff
  | qoi
  | bmp
  | jpeg
deriving DecidableEq, Repr

/-- Operation modes (types.ts `OperationMode`). -/
inductive OperationMode
  | optimize
  | resize
  | convert
  | optimize_resize
  | all
deriving DecidableEq, Repr

/-- Resize modes (types.ts `ResizeMode`). -/
inductive ResizeMode
  | percentage
  | dimensions
deriving DecidableEq, Repr

/-- File processing status (types.ts `FileStatus`). -/
inductive FileStatus
  | pending
  | processing
  | success
  | failed
deriving DecidableEq, Repr

/-- A file tracked by the UI (types.ts `TrackedFile`). -/
structure TrackedFile where
  id : String
  name : String
  path : String
  size : Nat
  width : Option Nat
  height : Option Nat
  status : FileStatus
  error : Option String
  outputPath : Option String
  outputSize : Option Nat
  outputWidth : Option Nat
  outputHeight : Option Nat
deriving DecidableEq, Repr

/-- Result of a single file conversion (types.ts `FileResult`, matching the
Rust serde output). -/
structure FileResult where
  path : String
  status : FileStatus
  output_path : Option String
  output_size : Option Nat
  output_width : Option Nat
  output_height : Option Nat
  error : Option String
deriving DecidableEq, Repr

/-- Result of the entire batch operation (types.ts `BatchResult`). -/
structure BatchResult where
  results : List FileResult
  total : Nat
  success_count : Nat
  failed_count : Nat
deriving DecidableEq, Repr

/-- The request object passed to `invoke('optimize_batch', ...)` in
`App.tsx handleStart`; optional JS fields (`undefined` when the guard on the
operation mode fails) are `Option`s. -/
structure BatchRequest where
  paths : List String
  output_dir : String
  format : Option OutputFormat
  overwrite : Bool
  operation_mode : OperationMode
  quality : Option Nat
  resize_mode : Option ResizeMode
  resize_percentage : Option Nat
  max_width : Option Nat
  max_height : Option Nat
  keep_aspect : Bool
  create_backup : Bool
deriving DecidableEq, Repr

/-- The settings portion of the `App` component state (the `useState` cells
read by `handleStart`). -/
structure AppSettings where
  operationMode : OperationMode
  outputFormat : OutputFormat
  outputDir : String
  overwrite : Bool
  quality : Nat
  resizeMode : ResizeMode
  resizePercentage : Nat
  maxWidth : Nat
  maxHeight : Nat
  keepAspect : Bool
deriving DecidableEq, Repr

/-- The guard `operationMode === 'optimize' || operationMode === 'optimize_resize' || operationMode === 'all'`
used for the `quality` field in `handleStart`. -/
def modeRecompresses : OperationMode → Bool
  | OperationMode.optimize => true
  | OperationMode.optimize_resize => true
  | OperationMode.all => true
  | _ => false

/-- The guard `operationMode === 'resize' || operationMode === 'optimize_resize' || operationMode === 'all'`
used for the resize fields in `handleStart`. -/
def modeResizes : OperationMode → Bool
  | OperationMode.resize => true
  | OperationMode.optimize_resize => true
  | OperationMode.all => true
  | _ => false

/-- The guard `outputFormat === 'webp' || outputFormat === 'png' || outputFormat === 'jpeg'`
used for the `quality` field in `handleStart`. -/
def isLossyTarget : OutputFormat → Bool
  | OutputFormat.webp => true
  | OutputFormat.png => true
  | OutputFormat.jpeg => true
  | _ => false

/-- The request literal built inside `handleStart` (App.tsx lines 187-241):
each field mirrors the corresponding JS conditional expression, with
`effectiveOutputDir = overwrite ? '' : outputDir`. -/
def buildRequest (s : AppSettings) (files : List TrackedFile) : BatchRequest :=
  { paths := files.map TrackedFile.path
  , output_dir := if s.overwrite then "" else s.outputDir
  , format := if s.operationMode = OperationMode.convert then some s.outputFormat else none
  , overwrite := s.overwrite
  , operation_mode := s.operationMode
  , quality :=
      if modeRecompresses s.operationMode ∧ isLossyTarget s.outputFormat
      then some s.quality else none
  , resize_mode :=
      if modeResizes s.operationMode then some s.resizeMode else none
  , resize_percentage :=
      if modeResizes s.operationMode ∧ s.resizeMode = ResizeMode.percentage
      then some s.resizePercentage else none
  , max_width :=
      if modeResizes s.operationMode ∧ s.resizeMode = ResizeMode.dimensions ∧ 0 < s.maxWidth
      then some s.maxWidth else none
  , max_height :=
      if modeResizes s.operationMode ∧ s.resizeMode = ResizeMode.dimensions ∧ 0 < s.maxHeight
      then some s.maxHeight else none
  , keep_aspect := s.keepAspect
  , create_backup := s.overwrite }

example :
    (buildRequest
      { operationMode := OperationMode.convert, outputFormat := OutputFormat.webp
      , outputDir := "D:/out", overwrite := false, quality := 75
      , resizeMode := ResizeMode.percentage, resizePercentage := 50
      , maxWidth := 0, maxHeight := 0, keepAspect := true }
      []).format = some OutputFormat.webp := by decide

example :
    (buildRequest
      { operationMode := OperationMode.all, outputFormat := OutputFormat.webp
      , outputDir := "D:/out", overwrite := false, quality := 75
      , resizeMode := ResizeMode.percentage, resizePercentage := 50
      , maxWidth := 0, maxHeight := 0, keepAspect := true }
      []).format = none := by decide

/-- The functional updater passed to `setFiles` in `App.tsx handleFilesAdded`
(lines 125-146): `existingPaths = new Set(prev.map(f => f.path))`,
`uniqueNewFiles = newFiles.filter(f => !existingPaths.has(f.path))`,
result `[...prev, ...uniqueNewFiles]`.  The `Set.has` test is embedded as
list membership over the previously tracked paths. -/
def handleFilesAdded (prev newFiles : List TrackedFile) : List TrackedFile :=
  prev ++ newFiles.filter (fun f => decide (f.path ∉ prev.map TrackedFile.path))

/-- The `App` component state cells touched by `handleStart`/`handleCancel`. -/
structure AppState where
  files : List TrackedFile
  isProcessing : Bool
  processedFiles : Nat
  successCount : Nat
  failedCount : Nat
deriving DecidableEq, Repr

/-- The updater `f => ({...f, status: 'pending', error: undefined})` applied
to every tracked file at the start of a batch (App.tsx lines 179-185). -/
def markPending (f : TrackedFile) : TrackedFile :=
  { f with status := FileStatus.pending, error := none }

/-- The per-file status merge after a successful batch (App.tsx lines
244-260): the first backend result with a matching path, if any, overwrites
status, error and the output fields. -/
def applyFileResult (results : List FileResult) (f : TrackedFile) : TrackedFile :=
  match results.find? (fun r => r.path == f.path) with
  | some r =>
      { f with status := r.status
             , error := r.error
             , outputPath := r.output_path
             , outputSize := r.output_size
             , outputWidth := r.output_width
             , outputHeight := r.output_height }
  | none => f

/-- Outcome of the awaited `invoke('optimize_batch', ...)` promise: either a
`BatchResult` or a rejection carried into the `catch` block as
`String(error)`. -/
inductive InvokeOutcome
  | ok (result : BatchResult)
  | err (msg : String)
deriving DecidableEq, Repr

/-- One `invoke` call issued by a UI handler to the Rust backend. -/
inductive BackendCall
  | resetCancelFlag
  | optimizeBatch (req : BatchRequest)
  | cancelBatch
deriving DecidableEq, Repr

/-- The full effect of `App.tsx handleStart` (lines 162-283), parameterised
by the backend's reply: the ordered trace of `invoke` calls it issues and
the component state it leaves behind.  The two early-return guards come
first; then `reset_cancel_flag` is invoked, counters are reset, all files
are marked pending, and the request is submitted; the `then` branch merges
the results and copies the report counters, the `catch` branch marks every
file failed with the stringified error and sets processed and failed to the
tracked-file count (`successCount` keeps the 0 written at the start). -/
def handleStartRun (s : AppSettings) (st : AppState) (reply : InvokeOutcome) :
    List BackendCall × AppState :=
  if st.files.length = 0 then ([], st)
  else if s.overwrite = false ∧ s.outputDir = "" then ([], st)
  else
    let req := buildRequest s st.files
    let pending := st.files.map markPending
    match reply with
    | InvokeOutcome.ok result =>
        ([BackendCall.resetCancelFlag, BackendCall.optimizeBatch req],
         { files := pending.map (applyFileResult result.results)
         , isProcessing := false
         , processedFiles := result.total
         , successCount := result.success_count
         , failedCount := result.failed_count })
    | InvokeOutcome.err msg =>
        ([BackendCall.resetCancelFlag, BackendCall.optimizeBatch req],
         { files := pending.map (fun f => { f with status := FileStatus.failed, error := some msg })
         , isProcessing := false
         , processedFiles := st.files.length
         , successCount := 0
         , failedCount := st.files.length })

/-- Outcome of the awaited `invoke('cancel_batch')` promise: resolution, or
a rejection caught by the `catch` block. -/
inductive CancelOutcome
  | ok
  | err (msg : String)
deriving DecidableEq, Repr

/-- The effect of `App.tsx handleCancel` (lines 285-292), parameterised by
the outcome of the awaited invoke: `cancel_batch` is always invoked;
`setIsProcessing(false)` sits inside the `try` after the await, so it runs
only if the invoke resolves — on rejection the `catch` block merely logs
and the state is left unchanged. -/
def handleCancel (st : AppState) : CancelOutcome → List BackendCall × AppState
  | CancelOutcome.ok => ([BackendCall.cancelBatch], { st with isProcessing := false })
  | CancelOutcome.err _ => ([BackendCall.cancelBatch], st)

/-- A concrete tracked file used in counterexamples and witnesses. -/
def fileA : TrackedFile :=
  { id := "id1", name := "a.png", path := "C:/pics/a.png", size := 100
  , width := some 40, height := some 20, status := FileStatus.pending
  , error := none, outputPath := none, outputSize := none
  , outputWidth := none, outputHeight := none }

/-- A second concrete tracked file with a distinct path. -/
def fileB : TrackedFile :=
  { id := "id2", name := "b.png", path := "C:/pics/b.png", size := 200
  , width := some 40, height := some 20, status := FileStatus.pending
  , error := none, outputPath := none, outputSize := none
  , outputWidth := none, outputHeight := none }

example :
    (handleFilesAdded [fileA] [fileA, fileB]).map TrackedFile.path
      = ["C:/pics/a.png", "C:/pics/b.png"] := by decide

example :
    ((handleFilesAdded [] [fileA, fileA]).map TrackedFile.path).Nodup = False := by
  decide


/-- Modelled from the spec: the duplicate suppression performed by the Rust
batch coordinator, whose source (`src-tauri`) is absent from the repository
snapshot — "builds one FileTask per unique input path, preserving first-seen
order for duplicate suppression".  `seen` accumulates the paths already
kept; a path is kept only on its first occurrence. -/
def dedupFirstAux (seen : List String) : List String → List String
  | [] => []
  | p :: rest =>
      if p ∈ seen then dedupFirstAux seen rest
      else p :: dedupFirstAux (p :: seen) rest

/-- The unique input paths of a batch, in first-seen order. -/
def dedupFirst (l : List String) : List String := dedupFirstAux [] l

/-- A path survives `dedupFirstAux` exactly when it occurs in the remaining
input and has not been kept already. -/
theorem mem_dedupFirstAux (a : String) : ∀ (l seen : List String),
    a ∈ dedupFirstAux seen l ↔ a ∈ l ∧ a ∉ seen := by
  intro l
  induction l with
  | nil => intro seen; simp [dedupFirstAux]
  | cons p rest ih =>
      intro seen
      rw [dedupFirstAux]
      by_cases hp : p ∈ seen
      · rw [if_pos hp, ih]
        constructor
        · rintro ⟨h, hns⟩
          exact ⟨List.mem_cons_of_mem p h, hns⟩
        · rintro ⟨hm, hns⟩
          rcases List.mem_cons.mp hm with rfl | hm
          · exact absurd hp hns
          · exact ⟨hm, hns⟩
      · rw [if_neg hp]
        simp only [List.mem_cons, ih]
        constructor
        · rintro (rfl | ⟨hm, hns⟩)
          · exact ⟨Or.inl rfl, hp⟩
          · exact ⟨Or.inr hm, fun hs => hns (Or.inr hs)⟩
        · rintro ⟨rfl | hm, hns⟩
          · exact Or.inl rfl
          · by_cases hap : a = p
            · exact Or.inl hap
            · refine Or.inr ⟨hm, fun hs => ?_⟩
              rcases hs with h | h
              · exact hap h
              · exact hns h

/-- `dedupFirstAux` never keeps a path twice. -/
theorem nodup_dedupFirstAux : ∀ (l seen : List String), (dedupFirstAux seen l).Nodup := by
  intro l
  induction l with
  | nil => intro seen; simp [dedupFirstAux]
  | cons p rest ih =>
      intro seen
      rw [dedupFirstAux]
      by_cases hp : p ∈ seen
      · rw [if_pos hp]; exact ih seen
      · rw [if_neg hp]
        refine List.nodup_cons.mpr ⟨?_, ih (p :: seen)⟩
        intro hmem
        rcases (mem_dedupFirstAux p rest (p :: seen)).mp hmem with ⟨-, hns⟩
        exact hns (List.mem_cons_self p seen)

/-- Membership is unchanged by first-seen deduplication. -/
theorem mem_dedupFirst (a : String) (l : List String) : a ∈ dedupFirst l ↔ a ∈ l := by
  rw [dedupFirst, mem_dedupFirstAux]
  simp

/-- First-seen deduplication yields a list without duplicate paths. -/
theorem nodup_dedupFirst (l : List String) : (dedupFirst l).Nodup :=
  nodup_dedupFirstAux l []

example : dedupFirst ["a", "b", "a", "c", "b"] = ["a", "b", "c"] := by decide

/-- Modelled from the spec: the outcome the per-file pipeline reports for
one path — `process(FileTask, effectiveSettings) -> FileResult` with
"status ∈ {success, failed}", never throwing past its boundary. -/
inductive PipelineOutcome
  | success (outPath : String) (outSize outW outH : Nat)
  | failed (msg : String)
deriving DecidableEq, Repr

/-- Modelled from the spec: how a pipeline outcome for one path becomes the
`FileResult` collected by the aggregator (optional output fields filled on
success, the error message on failure). -/
def mkFileResult (p : String) : PipelineOutcome → FileResult
  | PipelineOutcome.success op osz ow oh =>
      { path := p, status := FileStatus.success, output_path := some op
      , output_size := some osz, output_width := some ow, output_height := some oh
      , error := none }
  | PipelineOutcome.failed msg =>
      { path := p, status := FileStatus.failed, output_path := none
      , output_size := none, output_width := none, output_height := none
      , error := some msg }

/-- Modelled from the spec: the coordinator's request validation —
"non-empty path list; output directory present when not overwriting". -/
def validRequest (req : BatchRequest) : Bool :=
  decide (req.paths ≠ []) && (req.overwrite || decide (req.output_dir ≠ ""))

/-- Modelled from the spec: the Rust batch coordinator and result aggregator
(`run(BatchRequest) -> BatchResult`), absent from the repository snapshot.
It validates the request, builds one task per unique input path in
first-seen order, obtains one pipeline outcome per task and folds the
outcomes into a `BatchResult` with `total`, `success_count` and
`failed_count`.  The uncancelled run is modelled (under cancellation the
spec omits never-dispatched files from the report); concurrent completion
order is abstracted by keeping first-seen order. -/
def run (req : BatchRequest) (pipeline : String → PipelineOutcome) :
    Except String BatchResult :=
  if validRequest req then
    let results := (dedupFirst req.paths).map (fun p => mkFileResult p (pipeline p))
    Except.ok
      { results := results
      , total := results.length
      , success_count := results.countP (fun r => r.status == FileStatus.success)
      , failed_count := results.countP (fun r => r.status == FileStatus.failed) }
  else Except.error "InvalidRequest"

/-- A list of file results each of which is a success or a failure is
counted exactly once by the success counter plus the failure counter. -/
theorem length_eq_countP_success_add_countP_failed (l : List FileResult)
    (h : ∀ r ∈ l, r.status = FileStatus.success ∨ r.status = FileStatus.failed) :
    l.countP (fun r => r.status == FileStatus.success)
      + l.countP (fun r => r.status == FileStatus.failed) = l.length := by
  induction l with
  | nil => simp
  | cons r rest ih =>
      have hr := h r (List.mem_cons_self r rest)
      have hrest := fun x hx => h x (List.mem_cons_of_mem r hx)
      rw [List.countP_cons, List.countP_cons, List.length_cons, ← ih hrest]
      rcases hr with hs | hs <;> rw [hs] <;> simp <;> omega

/-- Every result produced by the pipeline carries status success or failed. -/
theorem mkFileResult_status (p : String) (o : PipelineOutcome) :
    (mkFileResult p o).status = FileStatus.success
      ∨ (mkFileResult p o).status = FileStatus.failed := by
  cases o <;> simp [mkFileResult]

/-- The path of a pipeline result is the path it was produced for. -/
theorem mkFileResult_path (p : String) (o : PipelineOutcome) :
    (mkFileResult p o).path = p := by
  cases o <;> simp [mkFileResult]

/-- Modelled from the spec: the Resize Operator's Dimensions mode with
aspect lock, absent from the repository snapshot (`src-tauri`) — "compute
the scale factor that fits the image within the maxW×maxH box without
exceeding either bound (`scale = min(maxW/originalW, maxH/originalH)`),
clamp scale to ≤ 1 so images smaller than the box are never upscaled in
this mode, apply uniformly to both axes, then round", with "output
dimensions are always ≥ 1 pixel per axis". -/
def resizeDimsAspect (w h maxW maxH : Nat) : Nat × Nat :=
  (max 1 (round ((w : ℚ) * min (min ((maxW : ℚ) / (w : ℚ)) ((maxH : ℚ) / (h : ℚ))) 1)).toNat,
   max 1 (round ((h : ℚ) * min (min ((maxW : ℚ) / (w : ℚ)) ((maxH : ℚ) / (h : ℚ))) 1)).toNat)

/-- The length of the first-seen deduplication is the number of unique
input paths. -/
theorem length_dedupFirst (l : List String) : (dedupFirst l).length = l.toFinset.card := by
  rw [← List.toFinset_card_of_nodup (nodup_dedupFirst l)]
  congr 1
  ext a
  simp [List.mem_toFinset, mem_dedupFirst]

/-- C1: for every valid BatchRequest, the BatchResult returned by `run`
satisfies total = success_count + failed_count = length(results) = number
of unique input paths, and every unique input path appears exactly once in
the results. -/
theorem C1_batch_result_invariant (req : BatchRequest)
    (pipeline : String → PipelineOutcome) (r : BatchResult)
    (h : run req pipeline = Except.ok r) :
    r.total = r.success_count + r.failed_count ∧
    r.total = r.results.length ∧
    r.total = req.paths.toFinset.card ∧
    ∀ p ∈ req.paths, (r.results.map FileResult.path).count p = 1 := by
  rw [run] at h
  by_cases hv : validRequest req
  · rw [if_pos hv] at h
    simp only [Except.ok.injEq] at h
    subst h
    have hstat : ∀ x ∈ (dedupFirst req.paths).map (fun p => mkFileResult p (pipeline p)),
        x.status = FileStatus.success ∨ x.status = FileStatus.failed := by
      intro x hx
      rcases List.mem_map.mp hx with ⟨p, -, rfl⟩
      exact mkFileResult_status p (pipeline p)
    have hmap : ((dedupFirst req.paths).map (fun p => mkFileResult p (pipeline p))).map
        FileResult.path = dedupFirst req.paths := by
      rw [List.map_map]
      have : ∀ p ∈ dedupFirst req.paths,
          (FileResult.path ∘ fun p => mkFileResult p (pipeline p)) p = id p := by
        intro p _
        simp [mkFileResult_path]
      rw [List.map_congr_left this, List.map_id]
    refine ⟨?_, ?_, ?_, ?_⟩
    · exact (length_eq_countP_success_add_countP_failed _ hstat).symm
    · rfl
    · rw [List.length_map, length_dedupFirst]
    · intro p hp
      rw [hmap]
      exact List.count_eq_one_of_mem (nodup_dedupFirst _) ((mem_dedupFirst p _).mpr hp)
  · rw [if_neg hv] at h
    exact absurd h (by simp)

/-- A concrete batch request with a duplicated path, used as the C1 witness
input. -/
def reqEx : BatchRequest :=
  { paths := ["a", "b", "a"], output_dir := "", format := none
  , overwrite := true, operation_mode := OperationMode.optimize
  , quality := some 75, resize_mode := none, resize_percentage := none
  , max_width := none, max_height := none, keep_aspect := true
  , create_backup := true }

/-- A concrete pipeline: path "a" succeeds, every other path fails. -/
def plEx : String → PipelineOutcome := fun p =>
  if p = "a" then PipelineOutcome.success "out/a" 10 4 2
  else PipelineOutcome.failed "boom"

/-- The batch result `run` produces for `reqEx` under `plEx`. -/
def rEx : BatchResult :=
  { results :=
      [ { path := "a", status := FileStatus.success, output_path := some "out/a"
        , output_size := some 10, output_width := some 4, output_height := some 2
        , error := none }
      , { path := "b", status := FileStatus.failed, output_path := none
        , output_size := none, output_width := none, output_height := none
        , error := some "boom" } ]
  , total := 2, success_count := 1, failed_count := 1 }

/-- Witness for C1 at a concrete request with a duplicate path. -/
theorem C1_witness :
    rEx.total = rEx.success_count + rEx.failed_count ∧
    rEx.total = rEx.results.length ∧
    rEx.total = reqEx.paths.toFinset.card ∧
    (rEx.results.map FileResult.path).count "a" = 1 := by
  have h := C1_batch_result_invariant reqEx plEx rEx (by rfl)
  exact ⟨h.1, h.2.1, h.2.2.1, h.2.2.2 "a" (by simp [reqEx])⟩

/-- Aspect-locked Dimensions resize of a 4000×2000 image into a 1000×1000
box: the scale is 1/4 and the result is exactly 1000×500. -/
theorem resizeDimsAspect_4000_2000 :
    resizeDimsAspect 4000 2000 1000 1000 = (1000, 500) := by
  unfold resizeDimsAspect
  have hmin : min (min (((1000:ℕ) : ℚ) / ((4000:ℕ) : ℚ)) (((1000:ℕ) : ℚ) / ((2000:ℕ) : ℚ))) 1
      = 1/4 := by
    push_cast
    rw [min_eq_left, min_eq_left] <;> norm_num
  rw [hmin]
  norm_num [round_eq, Int.floor_eq_iff]
  decide

/-- Aspect-locked Dimensions resize of a 200×100 image into a 1000×1000
box: the scale clamps to 1 and the image is unchanged. -/
theorem resizeDimsAspect_200_100 :
    resizeDimsAspect 200 100 1000 1000 = (200, 100) := by
  unfold resizeDimsAspect
  have hmin : min (min (((1000:ℕ) : ℚ) / ((200:ℕ) : ℚ)) (((1000:ℕ) : ℚ) / ((100:ℕ) : ℚ))) 1
      = 1 := by
    push_cast
    rw [min_eq_right]
    rw [le_min_iff]
    constructor <;> norm_num
  rw [hmin]
  norm_num [round_eq, Int.floor_eq_iff]
  decide

/-- An image that already fits the box is never upscaled: the clamped scale
is 1 and both axes are unchanged. -/
theorem resizeDimsAspect_no_upscale (w h maxW maxH : Nat) (hw : 0 < w) (hh : 0 < h)
    (hW : w ≤ maxW) (hH : h ≤ maxH) :
    resizeDimsAspect w h maxW maxH = (w, h) := by
  unfold resizeDimsAspect
  have hw' : (0:ℚ) < (w:ℚ) := by exact_mod_cast hw
  have hh' : (0:ℚ) < (h:ℚ) := by exact_mod_cast hh
  have h1 : (1:ℚ) ≤ (maxW:ℚ) / (w:ℚ) := (one_le_div hw').mpr (by exact_mod_cast hW)
  have h2 : (1:ℚ) ≤ (maxH:ℚ) / (h:ℚ) := (one_le_div hh').mpr (by exact_mod_cast hH)
  have hmin : min (min ((maxW:ℚ) / (w:ℚ)) ((maxH:ℚ) / (h:ℚ))) 1 = 1 :=
    min_eq_right (le_min h1 h2)
  rw [hmin, mul_one, mul_one, round_natCast, round_natCast]
  simp [Int.toNat_natCast]
  omega

/-- C2: Dimensions-mode resize with aspect lock scales both axes uniformly
by min(maxW/w, maxH/h) clamped to at most 1, then rounds: a 4000×2000 image
with box 1000×1000 yields exactly 1000×500, a 200×100 image with box
1000×1000 stays 200×100, and more generally any image already inside the
box is never upscaled. -/
theorem C2_resize_dimensions_aspect (w h maxW maxH : Nat) (hw : 0 < w) (hh : 0 < h)
    (hW : w ≤ maxW) (hH : h ≤ maxH) :
    resizeDimsAspect w h maxW maxH = (w, h) ∧
    resizeDimsAspect 4000 2000 1000 1000 = (1000, 500) ∧
    resizeDimsAspect 200 100 1000 1000 = (200, 100) :=
  ⟨resizeDimsAspect_no_upscale w h maxW maxH hw hh hW hH,
   resizeDimsAspect_4000_2000, resizeDimsAspect_200_100⟩

/-- Witness for C2 at the concrete 200×100 image in the 1000×1000 box. -/
theorem C2_witness :
    resizeDimsAspect 200 100 1000 1000 = (200, 100) ∧
    resizeDimsAspect 4000 2000 1000 1000 = (1000, 500) :=
  ⟨(C2_resize_dimensions_aspect 200 100 1000 1000 (by norm_num) (by norm_num)
      (by norm_num) (by norm_num)).1,
   (C2_resize_dimensions_aspect 200 100 1000 1000 (by norm_num) (by norm_num)
      (by norm_num) (by norm_num)).2.1⟩

/-- C3 counterexample: when one added batch itself contains the same path
twice, `handleFilesAdded` keeps both copies (deduplication is only against
already-tracked paths), so the tracked path list is not duplicate-free. -/
theorem C3_counterexample :
    ¬ ((handleFilesAdded [] [fileA, fileA]).map TrackedFile.path).Nodup := by
  decide

/-- C3 (amended): files whose path is already tracked are discarded and the
rest are appended in first-seen order; the tracked path list stays
duplicate-free provided the added batch itself contains no two files with
the same path (within-batch duplicates are not collapsed). -/
theorem C3_amended_dedup (prev newFiles : List TrackedFile)
    (hp : (prev.map TrackedFile.path).Nodup)
    (hn : (newFiles.map TrackedFile.path).Nodup) :
    handleFilesAdded prev newFiles
      = prev ++ newFiles.filter (fun f => decide (f.path ∉ prev.map TrackedFile.path)) ∧
    ((handleFilesAdded prev newFiles).map TrackedFile.path).Nodup := by
  refine ⟨rfl, ?_⟩
  rw [handleFilesAdded, List.map_append, List.nodup_append]
  refine ⟨hp, ?_, ?_⟩
  · exact hn.sublist (List.Sublist.map _ (List.filter_sublist _))
  · intro a ha hb
    rcases List.mem_map.mp hb with ⟨f, hf, rfl⟩
    rcases List.mem_filter.mp hf with ⟨-, hpred⟩
    rw [decide_eq_true_eq] at hpred
    exact hpred ha

/-- Witness for C3 (amended) at two distinct concrete files. -/
theorem C3_witness :
    handleFilesAdded [fileA] [fileB]
      = [fileA] ++ [fileB].filter (fun f => decide (f.path ∉ [fileA].map TrackedFile.path)) ∧
    ((handleFilesAdded [fileA] [fileB]).map TrackedFile.path).Nodup :=
  C3_amended_dedup [fileA] [fileB] (by decide) (by decide)

/-- C4: with no tracked files, or with overwrite off and an empty output
directory, `handleStart` returns before invoking anything: the backend call
trace is empty and the component state is untouched. -/
theorem C4_invalid_start_no_work (s : AppSettings) (st : AppState) (reply : InvokeOutcome)
    (h : st.files = [] ∨ (s.overwrite = false ∧ s.outputDir = "")) :
    handleStartRun s st reply = ([], st) := by
  rcases h with h | h
  · rw [handleStartRun, if_pos (by simp [h])]
  · rw [handleStartRun]
    by_cases hf : st.files.length = 0
    · rw [if_pos hf]
    · rw [if_neg hf, if_pos h]

/-- Settings with overwrite off and no output directory chosen. -/
def settingsNoDir : AppSettings :=
  { operationMode := OperationMode.optimize, outputFormat := OutputFormat.webp
  , outputDir := "", overwrite := false, quality := 75
  , resizeMode := ResizeMode.percentage, resizePercentage := 50
  , maxWidth := 0, maxHeight := 0, keepAspect := true }

/-- A component state tracking one pending file. -/
def stateA : AppState :=
  { files := [fileA], isProcessing := false
  , processedFiles := 0, successCount := 0, failedCount := 0 }

/-- Witness for C4: one tracked file, overwrite off, empty output
directory — nothing is invoked and the state is unchanged. -/
theorem C4_witness :
    handleStartRun settingsNoDir stateA (InvokeOutcome.err "x") = ([], stateA) :=
  C4_invalid_start_no_work settingsNoDir stateA (InvokeOutcome.err "x")
    (Or.inr ⟨rfl, rfl⟩)

/-- Settings in mode `all` (convert + optimize + resize). -/
def settingsAll : AppSettings :=
  { operationMode := OperationMode.all, outputFormat := OutputFormat.webp
  , outputDir := "D:/out", overwrite := false, quality := 75
  , resizeMode := ResizeMode.percentage, resizePercentage := 50
  , maxWidth := 0, maxHeight := 0, keepAspect := true }

/-- C5 counterexample: in mode `all` — which includes format conversion —
the submitted request's `format` field is absent, not the selected output
format: `handleStart` sends `format` only when the mode is exactly
`convert`. -/
theorem C5_counterexample :
    settingsAll.operationMode = OperationMode.all ∧
    (buildRequest settingsAll [fileA]).format = none ∧
    (buildRequest settingsAll [fileA]).format ≠ some settingsAll.outputFormat := by
  decide

/-- C5 (amended): the submitted request's `format` field equals the selected
output format exactly when the operation mode is `convert`, and is absent
for every other mode, including `all`. -/
theorem C5_format_only_convert (s : AppSettings) (files : List TrackedFile) :
    ((buildRequest s files).format = some s.outputFormat
      ↔ s.operationMode = OperationMode.convert) ∧
    ((buildRequest s files).format = none
      ↔ s.operationMode ≠ OperationMode.convert) := by
  by_cases hm : s.operationMode = OperationMode.convert <;> simp [buildRequest, hm]

/-- C6: whenever overwrite is on, the submitted `output_dir` is the empty
string, whatever output directory is configured. -/
theorem C6_overwrite_empty_output_dir (s : AppSettings) (files : List TrackedFile)
    (h : s.overwrite = true) :
    (buildRequest s files).output_dir = "" := by
  simp [buildRequest, h]

/-- Settings with overwrite on and a configured output directory, which the
overwrite path must ignore. -/
def settingsOverwrite : AppSettings :=
  { operationMode := OperationMode.optimize, outputFormat := OutputFormat.png
  , outputDir := "D:/out", overwrite := true, quality := 90
  , resizeMode := ResizeMode.percentage, resizePercentage := 50
  , maxWidth := 0, maxHeight := 0, keepAspect := true }

/-- Witness for C6 at concrete settings with a configured directory. -/
theorem C6_witness : (buildRequest settingsOverwrite [fileA]).output_dir = "" :=
  C6_overwrite_empty_output_dir settingsOverwrite [fileA] rfl

/-- C7: the `quality` field is present (and carries the configured quality)
iff the mode recompresses (optimize, optimize_resize or all) and the
selected output format is a lossy target (webp, png or jpeg); in particular
it is absent for tiff, qoi and bmp. -/
theorem C7_quality_lossy_only (s : AppSettings) (files : List TrackedFile) :
    ((buildRequest s files).quality = some s.quality
      ↔ (modeRecompresses s.operationMode ∧ isLossyTarget s.outputFormat)) ∧
    ((s.outputFormat = OutputFormat.tiff ∨ s.outputFormat = OutputFormat.qoi
        ∨ s.outputFormat = OutputFormat.bmp) →
      (buildRequest s files).quality = none) := by
  constructor
  · by_cases hc : modeRecompresses s.operationMode ∧ isLossyTarget s.outputFormat <;>
      simp [buildRequest, hc]
  · rintro (h1 | h1 | h1) <;> simp [buildRequest, h1, isLossyTarget]

/-- Settings recompressing towards tiff, for which quality must be absent. -/
def settingsTiff : AppSettings :=
  { operationMode := OperationMode.optimize, outputFormat := OutputFormat.tiff
  , outputDir := "D:/out", overwrite := false, quality := 75
  , resizeMode := ResizeMode.percentage, resizePercentage := 50
  , maxWidth := 0, maxHeight := 0, keepAspect := true }

/-- Witness for C7: optimize towards webp carries the quality, optimize
towards tiff drops it. -/
theorem C7_witness :
    (buildRequest settingsOverwrite [fileA]).quality = some settingsOverwrite.quality ∧
    (buildRequest settingsTiff [fileA]).quality = none :=
  ⟨(C7_quality_lossy_only settingsOverwrite [fileA]).1.mpr (by decide),
   (C7_quality_lossy_only settingsTiff [fileA]).2 (Or.inl rfl)⟩

/-- C8: every submitted request carries `create_backup` equal to its
`overwrite` flag — a backup is requested exactly when originals are
overwritten. -/
theorem C8_create_backup_iff_overwrite (s : AppSettings) (files : List TrackedFile) :
    (buildRequest s files).create_backup = (buildRequest s files).overwrite ∧
    (buildRequest s files).create_backup = s.overwrite := by
  simp [buildRequest]

/-- C9: a batch run that passes the guards first invokes
`reset_cancel_flag` and only then submits `optimize_batch` (whatever the
backend replies), and `handleCancel` invokes `cancel_batch` on the backend
whatever the outcome of that invoke — it requests cancellation from the
coordinator rather than only changing UI state (the processing flag is
cleared only when the invoke resolves). -/
theorem C9_reset_before_submit_and_cancel (s : AppSettings) (st : AppState)
    (reply : InvokeOutcome) (c : CancelOutcome) (hne : st.files ≠ [])
    (hv : s.overwrite = true ∨ s.outputDir ≠ "") :
    (handleStartRun s st reply).1
      = [BackendCall.resetCancelFlag, BackendCall.optimizeBatch (buildRequest s st.files)] ∧
    (handleCancel st c).1 = [BackendCall.cancelBatch] ∧
    (handleCancel st CancelOutcome.ok).2.isProcessing = false := by
  refine ⟨?_, by cases c <;> rfl, rfl⟩
  rw [handleStartRun, if_neg (by simpa using hne), if_neg ?_]
  · cases reply <;> rfl
  · rintro ⟨ho, hd⟩
    rcases hv with hv | hv
    · rw [hv] at ho
      exact absurd ho (by simp)
    · exact hv hd

/-- Witness for C9 at one tracked file with overwrite on, with the cancel
invoke itself rejecting (the request is still issued). -/
theorem C9_witness :
    (handleStartRun settingsOverwrite stateA (InvokeOutcome.err "x")).1
      = [BackendCall.resetCancelFlag,
         BackendCall.optimizeBatch (buildRequest settingsOverwrite stateA.files)] ∧
    (handleCancel stateA (CancelOutcome.err "y")).1 = [BackendCall.cancelBatch] ∧
    (handleCancel stateA CancelOutcome.ok).2.isProcessing = false :=
  C9_reset_before_submit_and_cancel settingsOverwrite stateA (InvokeOutcome.err "x")
    (CancelOutcome.err "y") (by decide) (Or.inl rfl)

/-- C10: if the `optimize_batch` invocation rejects, the handler marks every
tracked file failed with the stringified error, sets both the processed and
the failed count to the number of tracked files, and leaves the success
count at the zero written when the run started. -/
theorem C10_reject_marks_all_failed (s : AppSettings) (st : AppState) (msg : String)
    (hne : st.files ≠ []) (hv : s.overwrite = true ∨ s.outputDir ≠ "") :
    (∀ f ∈ (handleStartRun s st (InvokeOutcome.err msg)).2.files,
        f.status = FileStatus.failed ∧ f.error = some msg) ∧
    (handleStartRun s st (InvokeOutcome.err msg)).2.files.length = st.files.length ∧
    (handleStartRun s st (InvokeOutcome.err msg)).2.processedFiles = st.files.length ∧
    (handleStartRun s st (InvokeOutcome.err msg)).2.failedCount = st.files.length ∧
    (handleStartRun s st (InvokeOutcome.err msg)).2.successCount = 0 := by
  have hg : handleStartRun s st (InvokeOutcome.err msg)
      = ([BackendCall.resetCancelFlag, BackendCall.optimizeBatch (buildRequest s st.files)],
         { files := (st.files.map markPending).map
              (fun f => { f with status := FileStatus.failed, error := some msg })
         , isProcessing := false
         , processedFiles := st.files.length
         , successCount := 0
         , failedCount := st.files.length }) := by
    rw [handleStartRun, if_neg (by simpa using hne), if_neg ?_]
    · rintro ⟨ho, hd⟩
      rcases hv with hv | hv
      · rw [hv] at ho
        exact absurd ho (by simp)
      · exact hv hd
  rw [hg]
  refine ⟨?_, by simp, rfl, rfl, rfl⟩
  intro f hf
  rcases List.mem_map.mp hf with ⟨g, -, rfl⟩
  exact ⟨rfl, rfl⟩

/-- Witness for C10 at one tracked file with overwrite on: the file is
failed with the error, counts are 1/0/1. -/
theorem C10_witness :
    (∀ f ∈ (handleStartRun settingsOverwrite stateA (InvokeOutcome.err "boom")).2.files,
        f.status = FileStatus.failed ∧ f.error = some "boom") ∧
    (handleStartRun settingsOverwrite stateA (InvokeOutcome.err "boom")).2.processedFiles = 1 ∧
    (handleStartRun settingsOverwrite stateA (InvokeOutcome.err "boom")).2.failedCount = 1 ∧
    (handleStartRun settingsOverwrite stateA (InvokeOutcome.err "boom")).2.successCount = 0 := by
  have h := C10_reject_marks_all_failed settingsOverwrite stateA "boom"
    (by decide) (Or.inl rfl)
  exact ⟨h.1, h.2.2.1, h.2.2.2.1, h.2.2.2.2⟩
